/-
Verification of the dual-path audio relay backend (gemini-streaming-audio).

The repository contains two variants of the backend connection handler:
  * `src/unnamed/part_003` — the "secure" server (env-vars required); its
    WAV encoder is hand-rolled, its batch-response handler filters the
    "unclear audio" sentinel, and its close handler discards the partial
    final window.
  * `src/backend/server.js` — the original server; its close handler
    submits the remaining buffer and its response handler does not filter.

This file shallowly embeds:
  * JS string operations used by the handlers (trim, toLowerCase, includes);
  * Node's Buffer base64 encoding/decoding (base64-inl.h semantics:
    characters outside the alphabet are skipped, decoding stops at the
    first '=' character; we restrict the table to the standard alphabet,
    which is all that `Buffer.toString('base64')` ever produces);
  * `createWAVFromPCM` from src/unnamed/part_003 (byte-level);
  * the per-connection state machine of src/unnamed/part_003 as a
    labelled transition system whose events are the atomic turns of
    Node's single-threaded event loop (client messages, timer ticks,
    completion of an in-flight batch request, session open/failure,
    socket close), and the points where src/backend/server.js differs
    (its close handler and its batch-response handler);
  * the receiver-side reassembly of corrected transcriptions from
    src/frontend/src/GdmLiveAudioSecure.tsx.
-/
import Mathlib

set_option maxRecDepth 10000

/-! ### JS string operations -/

/-- JS `String.prototype.trim` whitespace test, restricted to the ASCII
whitespace characters that can occur in our texts. -/
def jsIsSpace (c : Char) : Bool :=
  c = ' ' || c = '\t' || c = '\n' || c = '\r' || c = '\x0b' || c = '\x0c'

/-- Characters of JS `s.trim()`: strip whitespace from both ends. -/
def jsTrimChars (l : List Char) : List Char :=
  ((l.dropWhile jsIsSpace).reverse.dropWhile jsIsSpace).reverse

/-- JS `s.trim()`. -/
def jsTrim (s : String) : String :=
  String.mk (jsTrimChars s.data)

/-- JS `s.toLowerCase()` on ASCII text (Char.toLower lowers A–Z). -/
def jsToLower (s : String) : List Char :=
  s.data.map Char.toLower

/-- Does `hay` start with `needle`? -/
def chStartsWith : List Char → List Char → Bool
  | [], _ => true
  | _ :: _, [] => false
  | a :: as, b :: bs => a = b && chStartsWith as bs

/-- JS `hay.includes(needle)`: `needle` occurs contiguously in `hay`. -/
def chContains (needle : List Char) : List Char → Bool
  | [] => chStartsWith needle []
  | c :: rest => chStartsWith needle (c :: rest) || chContains needle rest

/-- The inaudible sentinel the batch prompt asks the model to return
(src/unnamed/part_003 line 143/161). -/
def sentinel : String := "unclear audio"

/-! ### Node Buffer base64

`Buffer.from(str, 'base64')` (node src/base64-inl.h): the decoder walks the
input, skipping characters that are not in the base64 alphabet, and stops
decoding entirely at the first `'='`; every 4 collected sextets yield 3
bytes, a final partial group of 3 sextets yields 2 bytes, of 2 sextets
1 byte, of fewer none.  The output-size precomputation (which only strips
up to two trailing `'='`) never truncates the output for inputs that are
concatenations of `Buffer.toString('base64')` encodings, so it is not
modelled.  `Buffer.toString('base64')` is standard RFC 4648 encoding with
padding. -/

/-- The standard base64 alphabet. -/
def b64Alphabet : List Char :=
  "ABCDEFGHIJKLMNOPQRSTUVWXYZabcdefghijklmnopqrstuvwxyz0123456789+/".data

/-- Sextet value → alphabet character. -/
def b64Char (v : Nat) : Char :=
  b64Alphabet.getD v 'A'

/-- Alphabet character → sextet value (`none` for characters outside the
alphabet, including `'='`). -/
def unbase64 (c : Char) : Option Nat :=
  List.findIdx? (fun a => a = c) b64Alphabet

/-- `Buffer.toString('base64')`: RFC 4648 with padding, 3 input bytes per
4 output characters. -/
def b64encode : List Nat → List Char
  | b0 :: b1 :: b2 :: rest =>
      b64Char (b0 / 4) :: b64Char (b0 % 4 * 16 + b1 / 16) ::
      b64Char (b1 % 16 * 4 + b2 / 64) :: b64Char (b2 % 64) :: b64encode rest
  | [b0, b1] =>
      [b64Char (b0 / 4), b64Char (b0 % 4 * 16 + b1 / 16), b64Char (b1 % 16 * 4), '=']
  | [b0] =>
      [b64Char (b0 / 4), b64Char (b0 % 4 * 16), '=', '=']
  | [] => []

/-- The sextets node's decoder collects: skip non-alphabet characters,
stop at the first `'='`. -/
def b64Sextets : List Char → List Nat
  | [] => []
  | c :: rest =>
      if c = '=' then []
      else
        match unbase64 c with
        | some v => v :: b64Sextets rest
        | none => b64Sextets rest

/-- Reassemble bytes from sextets: 4 sextets → 3 bytes; a trailing group
of 3 → 2 bytes, of 2 → 1 byte, of fewer → none (node writes each byte as
soon as its two sextets are known). -/
def sextetsToBytes : List Nat → List Nat
  | s0 :: s1 :: s2 :: s3 :: rest =>
      (s0 * 4 + s1 / 16) :: (s1 % 16 * 16 + s2 / 4) :: (s2 % 4 * 64 + s3) ::
      sextetsToBytes rest
  | [s0, s1, s2] => [s0 * 4 + s1 / 16, s1 % 16 * 16 + s2 / 4]
  | [s0, s1] => [s0 * 4 + s1 / 16]
  | _ => []

/-- `Buffer.from(chars, 'base64')` per node semantics. -/
def nodeB64Decode (cs : List Char) : List Nat :=
  sextetsToBytes (b64Sextets cs)

/-- src/unnamed/part_003 lines 127–128: decode each base64 fragment
separately, then concatenate the byte buffers in arrival order. -/
def part003CombinePCM (bufs : List String) : List Nat :=
  (bufs.map (fun s => nodeB64Decode s.data)).flatten

/-- src/backend/server.js line 107 (+ line 47 inside createWAVFromPCM):
join the base64 fragment strings and decode the joined string once. -/
def serverJsCombinePCM (bufs : List String) : List Nat :=
  nodeB64Decode (bufs.map String.data).flatten

/-! ### WAV encoder (src/unnamed/part_003, createWAVFromPCM) -/

/-- `Buffer.writeUInt16LE`. -/
def u16le (v : Nat) : List Nat :=
  [v % 256, v / 256 % 256]

/-- `Buffer.writeUInt32LE` (values in range never wrap here). -/
def u32le (v : Nat) : List Nat :=
  [v % 256, v / 256 % 256, v / 65536 % 256, v / 16777216 % 256]

/-- `Buffer.write(ascii)`. -/
def asciiBytes (s : String) : List Nat :=
  s.data.map Char.toNat

/-- The 44-byte WAV header written by createWAVFromPCM
(src/unnamed/part_003 lines 66–85); the thirteen writes cover offsets
0..43 contiguously. -/
def wavHeader (dataLen sampleRate : Nat) : List Nat :=
  asciiBytes "RIFF" ++ u32le (36 + dataLen) ++ asciiBytes "WAVE" ++
  asciiBytes "fmt " ++ u32le 16 ++ u16le 1 ++ u16le 1 ++ u32le sampleRate ++
  u32le (sampleRate * 2) ++ u16le 2 ++ u16le 16 ++
  asciiBytes "data" ++ u32le dataLen

/-- createWAVFromPCM after the base64 decode: header ++ raw PCM
(`Buffer.concat([wavHeader, pcmData])`, line 88). -/
def wavFromPCMBytes (pcm : List Nat) (sampleRate : Nat) : List Nat :=
  wavHeader pcm.length sampleRate ++ pcm

/-- createWAVFromPCM itself: decode the base64 input, build the container
(the function returns it re-encoded as base64; we expose the bytes). -/
def createWAVFromPCM (pcmBase64 : String) (sampleRate : Nat) : List Nat :=
  wavFromPCMBytes (nodeB64Decode pcmBase64.data) sampleRate

/-- `Buffer.readUInt32LE` on a byte list. -/
def readU32LE (l : List Nat) (off : Nat) : Nat :=
  l.getD off 0 + 256 * l.getD (off + 1) 0 + 65536 * l.getD (off + 2) 0 +
  16777216 * l.getD (off + 3) 0

/-- `Buffer.readUInt16LE` on a byte list. -/
def readU16LE (l : List Nat) (off : Nat) : Nat :=
  l.getD off 0 + 256 * l.getD (off + 1) 0

/-! ### Per-connection state machine (src/unnamed/part_003)

Node runs the connection handler single-threaded: each client message,
each timer tick, each promise continuation runs to its next `await` (or
to completion) atomically.  The events below are exactly those atomic
turns; the state is the closure variables of the `wss.on('connection')`
handler.  Submissions handed to `ai.models.generateContent` that have not
yet resolved are tracked in `inflight` (they are not a source variable,
they are the outstanding promises). -/

/-- Outbound websocket messages (`ws.send(JSON.stringify(...))`). -/
inductive WsOut
  | statusMsg (message : String)
  | realtime (text : String)
  | corrected (text : String) (chunkId : Nat) (timestamp : Nat)
  | errorMsg (message : String)
  | closedMsg (reason : String)
  deriving DecidableEq, Repr

/-- Externally visible actions of one handler turn. -/
inductive Eff
  /-- `ws.send` to the client. -/
  | send (m : WsOut)
  /-- `ai.models.generateContent` issued with the drained fragments and
  the chunkId assigned at drain time. -/
  | submit (frags : List String) (chunkId : Nat)
  /-- `realtimeSession.sendRealtimeInput({audio: ...})`. -/
  | relayAudio (b64 : String)
  /-- `realtimeSession.sendRealtimeInput({text: ...})`. -/
  | relayText (t : String)
  /-- `realtimeSession.close()` (only server.js's close handler). -/
  | closeSession
  /-- `ws.close()` — never issued by either backend handler. -/
  | closeClientWs
  deriving DecidableEq, Repr

/-- The connection-handler closure variables of src/unnamed/part_003
(lines 101–107, 255), plus the multiset of outstanding batch requests. -/
structure ConnState where
  /-- `realtimeSession !== null`. -/
  realtimeSession : Bool
  /-- `audioBuffer`: base64 fragments accumulated since the last drain. -/
  audioBuffer : List String
  /-- `batchInterval !== null`: the 3-second timer is installed. -/
  batchInterval : Bool
  /-- `transcriptionCounter`. -/
  transcriptionCounter : Nat
  /-- `isProcessingBatch`. -/
  isProcessingBatch : Bool
  /-- `audioChunkCount`. -/
  audioChunkCount : Nat
  /-- Outstanding `generateContent` requests: (fragments, chunkId). -/
  inflight : List (List String × Nat)
  deriving DecidableEq, Repr

/-- State at `wss.on('connection')` entry. -/
def connInit : ConnState :=
  { realtimeSession := false
    audioBuffer := []
    batchInterval := false
    transcriptionCounter := 0
    isProcessingBatch := false
    audioChunkCount := 0
    inflight := [] }

/-- The synchronous prefix of `processBatchAudio` (part_003 lines
111–122, identical in server.js lines 92–103): guard on the in-flight
flag and on an empty buffer; otherwise set the flag, copy the buffer,
take `transcriptionCounter++` as the chunkId, clear the buffer, and issue
the request. -/
def processBatchStart (s : ConnState) : ConnState × List Eff :=
  if s.isProcessingBatch || s.audioBuffer.isEmpty then (s, [])
  else
    ({ s with
        isProcessingBatch := true
        audioBuffer := []
        transcriptionCounter := s.transcriptionCounter + 1
        inflight := s.inflight ++ [(s.audioBuffer, s.transcriptionCounter)] },
     [Eff.submit s.audioBuffer s.transcriptionCounter])

/-- Response handling of part_003's `processBatchAudio` (lines 156–177):
skip empty/whitespace-only text; skip text whose lowercase form contains
the sentinel; otherwise send exactly one corrected_transcription with the
trimmed text. -/
def batchResponseMsgs (text : String) (chunkId timestamp : Nat) : List WsOut :=
  if (jsTrimChars text.data).length > 0 then
    if chContains sentinel.data (jsToLower text) then []
    else [WsOut.corrected (jsTrim text) chunkId timestamp]
  else []

/-- Response handling of server.js's `processBatchAudio` (lines 136–148):
send whenever `result.text` is truthy, with no sentinel filter. -/
def serverJsBatchMsgs (text : String) (chunkId timestamp : Nat) : List WsOut :=
  if text = "" then [] else [WsOut.corrected (jsTrim text) chunkId timestamp]

/-- Atomic turns of the event loop for one connection (part_003). -/
inductive Ev
  /-- `ai.live.connect` resolved and `onopen` fired (lines 195–201 and
  244): status message, start the 3-second interval, session assigned. -/
  | sessionOpenOk
  /-- `ai.live.connect` threw (lines 247–252): error message only. -/
  | sessionOpenFail (emsg : String)
  /-- The interval fired, running `processBatchAudio` to its first await. -/
  | tick
  /-- The oldest outstanding `generateContent` settled; `some text` is a
  response with that text, `none` a rejection (caught at lines 179–183);
  either way the `finally` clears the flag (lines 184–186). -/
  | batchDone (outcome : Option String) (timestamp : Nat)
  /-- Client message parsed to `{type:'audio', audio}` (lines 260–285). -/
  | clientAudio (b64 : String)
  /-- Client message parsed to `{type:'text', text}` (lines 286–291). -/
  | clientText (t : String)
  /-- Client message that failed `JSON.parse` (lines 292–295). -/
  | clientBadJson (emsg : String)
  /-- Client message of any other type: no branch matches. -/
  | clientUnknown (ty : String)
  /-- `ws.on('close')` fired (part_003 lines 298–316). -/
  | wsClose
  deriving DecidableEq, Repr

/-- One atomic turn of src/unnamed/part_003's connection handler. -/
def step (e : Ev) (s : ConnState) : ConnState × List Eff :=
  match e with
  | Ev.sessionOpenOk =>
      ({ s with realtimeSession := true, batchInterval := true },
       [Eff.send (WsOut.statusMsg "Connected to Gemini Live")])
  | Ev.sessionOpenFail emsg =>
      (s, [Eff.send (WsOut.errorMsg ("Failed to connect to Gemini Live: " ++ emsg))])
  | Ev.tick =>
      if s.batchInterval then processBatchStart s else (s, [])
  | Ev.batchDone outcome ts =>
      match s.inflight with
      | [] => (s, [])
      | (_, chunkId) :: rest =>
          ({ s with inflight := rest, isProcessingBatch := false },
           match outcome with
           | some text => (batchResponseMsgs text chunkId ts).map Eff.send
           | none => [])
  | Ev.clientAudio b64 =>
      if s.realtimeSession then
        ({ s with
            audioChunkCount := s.audioChunkCount + 1
            audioBuffer := s.audioBuffer ++ [b64] },
         [Eff.relayAudio b64])
      else (s, [])
  | Ev.clientText t =>
      if s.realtimeSession then (s, [Eff.relayText t]) else (s, [])
  | Ev.clientBadJson emsg =>
      (s, [Eff.send (WsOut.errorMsg emsg)])
  | Ev.clientUnknown _ => (s, [])
  | Ev.wsClose =>
      ({ s with audioBuffer := [], batchInterval := false }, [])

/-- Run a list of turns, collecting effects in order. -/
def run (s : ConnState) : List Ev → ConnState × List Eff
  | [] => (s, [])
  | e :: rest =>
      let p := step e s
      let q := run p.1 rest
      (q.1, p.2 ++ q.2)

/-- server.js's `ws.on('close')` handler (lines 246–264): drain-and-submit
the remaining buffer, clear the interval, close the session. -/
def serverJsCloseStep (s : ConnState) : ConnState × List Eff :=
  let p := if s.audioBuffer.length > 0 then processBatchStart s else (s, [])
  ({ p.1 with batchInterval := false },
   p.2 ++ (if p.1.realtimeSession then [Eff.closeSession] else []))

/-- The submissions among a list of effects. -/
def submitsOf (effs : List Eff) : List (List String × Nat) :=
  effs.filterMap fun e =>
    match e with
    | Eff.submit frags cid => some (frags, cid)
    | _ => none

/-- Audio-message events for a list of fragments. -/
def audioEvs (xs : List String) : List Ev :=
  xs.map Ev.clientAudio

/-! ### Receiver-side reassembly (src/frontend/src/GdmLiveAudioSecure.tsx,
corrected_transcription case, lines 225–242)

`transcriptionChunks.current` is a JS `Map` (insertion-ordered);
`Map.set` overwrites in place or appends; the handler then sorts the
entries by key with `(a, b) => a[0] - b[0]`, maps to the values and joins
with a space. -/

/-- JS `Map.prototype.set` on an insertion-ordered association list. -/
def jsMapSet (m : List (Nat × String)) (k : Nat) (v : String) :
    List (Nat × String) :=
  if m.any (fun p => p.1 = k) then
    m.map (fun p => if p.1 = k then (k, v) else p)
  else m ++ [(k, v)]

/-- One corrected_transcription message: guarded by `if (message.text)`,
then `transcriptionChunks.current.set(message.chunkId, message.text)`. -/
def receiverInsert (m : List (Nat × String)) (msg : Nat × String) :
    List (Nat × String) :=
  if msg.2 = "" then m else jsMapSet m msg.1 msg.2

/-- The map contents after processing the messages in arrival order. -/
def buildChunks (msgs : List (Nat × String)) : List (Nat × String) :=
  msgs.foldl receiverInsert []

/-- The comparator `(a, b) => a[0] - b[0]`: ascending by chunkId. -/
def byKeyLE (a b : Nat × String) : Prop := a.1 ≤ b.1

instance : DecidableRel byKeyLE := fun a b => Nat.decLe a.1 b.1

instance : IsTotal (Nat × String) byKeyLE :=
  ⟨fun a b => Nat.le_total a.1 b.1⟩

instance : IsTrans (Nat × String) byKeyLE :=
  ⟨fun _ _ _ h1 h2 => Nat.le_trans h1 h2⟩

/-- Strict version of the comparator, used to show the sorted list is
unique when the chunkIds are distinct. -/
def byKeyLT (a b : Nat × String) : Prop := a.1 < b.1

instance : IsAntisymm (Nat × String) byKeyLT :=
  ⟨fun a _ h1 h2 => absurd (Nat.lt_trans h1 h2) (Nat.lt_irrefl a.1)⟩

/-- `Array.prototype.sort` with the ascending-by-key comparator. -/
def sortChunks (m : List (Nat × String)) : List (Nat × String) :=
  List.insertionSort byKeyLE m

/-- JS `array.join(' ')`. -/
def joinSpace : List String → String
  | [] => ""
  | x :: xs => xs.foldl (fun acc s => acc ++ " " ++ s) x

/-- The corrected transcription shown after all messages arrived. -/
def receiverFinal (msgs : List (Nat × String)) : String :=
  joinSpace ((sortChunks (buildChunks msgs)).map Prod.snd)

/-! ### Theorems -/

/-- C9: an unparseable inbound client message makes the handler report an
error message back to the client and nothing else (no state change, no
teardown), and a message of unknown type produces no outbound message and
leaves the whole per-connection state (buffer, counter, timer, session)
unchanged (src/unnamed/part_003 lines 256–296; src/backend/server.js
lines 214–244 behave identically). -/
theorem c9_malformed_and_unknown (s : ConnState) (emsg ty : String) :
    step (Ev.clientBadJson emsg) s = (s, [Eff.send (WsOut.errorMsg emsg)]) ∧
    step (Ev.clientUnknown ty) s = (s, []) :=
  ⟨rfl, rfl⟩

/-- C10: an audio message arriving while the streaming-session handle is
not assigned is dropped whole: not buffered, not forwarded, no reply, no
state change (src/unnamed/part_003 lines 260–285: the buffering branch
requires `realtimeSession`, the `!realtimeSession` branch only logs). -/
theorem c10_audio_dropped_without_session (s : ConnState) (f : String)
    (h : s.realtimeSession = false) :
    step (Ev.clientAudio f) s = (s, []) := by
  simp [step, h]

/-- Witness for C10 at the initial state, where no session exists. -/
theorem c10_witness :
    connInit.realtimeSession = false ∧
    step (Ev.clientAudio "QQ==") connInit = (connInit, []) :=
  ⟨rfl, c10_audio_dropped_without_session connInit "QQ==" rfl⟩

/-- C3 (amended): in src/unnamed/part_003 (lines 298–316) the claim
holds: the close handler issues no submission, discards the accumulated
window and clears the timer, for every state of the connection. -/
theorem c3_part003_close_discards (s : ConnState) :
    (step Ev.wsClose s).2 = [] ∧
    ((step Ev.wsClose s).1).audioBuffer = [] ∧
    ((step Ev.wsClose s).1).batchInterval = false :=
  ⟨rfl, rfl, rfl⟩

/-- C3 counterexample: src/backend/server.js (lines 246–264) violates the
claim — closing a connection whose window holds one undrained fragment
and has no batch in flight submits that window. -/
theorem c3_serverjs_close_submits :
    (serverJsCloseStep
        { connInit with
            realtimeSession := true, batchInterval := true,
            audioBuffer := ["QQ=="] }).2 =
      [Eff.submit ["QQ=="] 0, Eff.closeSession] := by
  decide

/-- C8 (amended): a streaming-session open failure sends an error message
to the client and closes nothing, but the batch path stays inert rather
than running: the open-failure turn changes no state (in particular the
3-second timer, which only `onopen` starts, is not started), and while
the session handle is unassigned every audio message is dropped without
being accumulated (src/unnamed/part_003 lines 195–201, 247–252,
260–285). -/
theorem c8_open_failure_inert (emsg f : String) (s : ConnState)
    (h : s.realtimeSession = false) :
    step (Ev.sessionOpenFail emsg) s =
      (s, [Eff.send (WsOut.errorMsg
            ("Failed to connect to Gemini Live: " ++ emsg))]) ∧
    step (Ev.clientAudio f) s = (s, []) := by
  exact ⟨rfl, by simp [step, h]⟩

/-- Witness for C8 at the initial state. -/
theorem c8_witness :
    connInit.realtimeSession = false ∧
    step (Ev.sessionOpenFail "boom") connInit =
      (connInit, [Eff.send (WsOut.errorMsg
        ("Failed to connect to Gemini Live: boom"))]) :=
  ⟨rfl, (c8_open_failure_inert "boom" "QQ==" connInit rfl).1⟩

/-- C8 counterexample: after an open failure followed by an audio
message, the buffer is empty and the timer is off — contradicting the
claim that fragments continue to accumulate and the timer runs. -/
theorem c8_cex_batch_path_dead :
    (run connInit [Ev.sessionOpenFail "x", Ev.clientAudio "QQ=="]).1.audioBuffer
        = [] ∧
    (run connInit [Ev.sessionOpenFail "x", Ev.clientAudio "QQ=="]).1.batchInterval
        = false ∧
    (run connInit [Ev.sessionOpenFail "x", Ev.clientAudio "QQ=="]).2 =
      [Eff.send (WsOut.errorMsg "Failed to connect to Gemini Live: x")] := by
  decide

/-- Reconstructing a 32-bit value from its four little-endian digits. -/
lemma u32_digits_sum (v : Nat) (h : v < 4294967296) :
    v % 256 + 256 * (v / 256 % 256) + 65536 * (v / 65536 % 256) +
      16777216 * (v / 16777216 % 256) = v := by
  omega

lemma asciiRIFF : asciiBytes "RIFF" = [82, 73, 70, 70] := rfl

lemma asciiWAVE : asciiBytes "WAVE" = [87, 65, 86, 69] := rfl

lemma asciiFmtSp : asciiBytes "fmt " = [102, 109, 116, 32] := rfl

lemma asciiData : asciiBytes "data" = [100, 97, 116, 97] := rfl

/-- The header written out element by element. -/
lemma wavHeader_cons (n sr : Nat) :
    wavHeader n sr =
      82 :: 73 :: 70 :: 70 ::
      ((36 + n) % 256) :: ((36 + n) / 256 % 256) :: ((36 + n) / 65536 % 256) ::
      ((36 + n) / 16777216 % 256) ::
      87 :: 65 :: 86 :: 69 ::
      102 :: 109 :: 116 :: 32 ::
      16 :: 0 :: 0 :: 0 ::
      1 :: 0 :: 1 :: 0 ::
      (sr % 256) :: (sr / 256 % 256) :: (sr / 65536 % 256) :: (sr / 16777216 % 256) ::
      (sr * 2 % 256) :: (sr * 2 / 256 % 256) :: (sr * 2 / 65536 % 256) ::
      (sr * 2 / 16777216 % 256) ::
      2 :: 0 :: 16 :: 0 ::
      100 :: 97 :: 116 :: 97 ::
      (n % 256) :: (n / 256 % 256) :: (n / 65536 % 256) ::
      (n / 16777216 % 256) :: [] := by
  simp only [wavHeader, asciiRIFF, asciiWAVE, asciiFmtSp, asciiData, u32le, u16le,
    List.cons_append, List.nil_append, List.append_assoc]

lemma wav_len (pcm : List Nat) : (wavHeader pcm.length 16000).length = 44 := by
  rw [wavHeader_cons]; rfl

lemma wav_split (pcm : List Nat) :
    wavFromPCMBytes pcm 16000 = wavHeader pcm.length 16000 ++ pcm := rfl

lemma wav_magic (pcm : List Nat) :
    (wavFromPCMBytes pcm 16000).take 4 = asciiBytes "RIFF" := by
  rw [wavFromPCMBytes, wavHeader_cons, asciiRIFF]; rfl

lemma wav_chunkSize (pcm : List Nat) (h : pcm.length + 36 < 4294967296) :
    readU32LE (wavFromPCMBytes pcm 16000) 4 = 36 + pcm.length := by
  rw [wavFromPCMBytes, wavHeader_cons]
  show (36 + pcm.length) % 256 + 256 * ((36 + pcm.length) / 256 % 256) +
      65536 * ((36 + pcm.length) / 65536 % 256) +
      16777216 * ((36 + pcm.length) / 16777216 % 256) = 36 + pcm.length
  exact u32_digits_sum _ (by omega)

lemma wav_sampleRate (pcm : List Nat) :
    readU32LE (wavFromPCMBytes pcm 16000) 24 = 16000 := by
  rw [wavFromPCMBytes, wavHeader_cons]; rfl

lemma wav_byteRate (pcm : List Nat) :
    readU32LE (wavFromPCMBytes pcm 16000) 28 = 32000 := by
  rw [wavFromPCMBytes, wavHeader_cons]
  norm_num [readU32LE, List.getD_cons_succ, List.getD_cons_zero, List.cons_append]

lemma wav_blockAlign (pcm : List Nat) :
    readU16LE (wavFromPCMBytes pcm 16000) 32 = 2 := by
  rw [wavFromPCMBytes, wavHeader_cons]
  norm_num [readU16LE, List.getD_cons_succ, List.getD_cons_zero, List.cons_append]

lemma wav_bitsPerSample (pcm : List Nat) :
    readU16LE (wavFromPCMBytes pcm 16000) 34 = 16 := by
  rw [wavFromPCMBytes, wavHeader_cons]
  norm_num [readU16LE, List.getD_cons_succ, List.getD_cons_zero, List.cons_append]

lemma wav_dataLen (pcm : List Nat) (h : pcm.length < 4294967296) :
    readU32LE (wavFromPCMBytes pcm 16000) 40 = pcm.length := by
  rw [wavFromPCMBytes, wavHeader_cons]
  norm_num [readU32LE, List.getD_cons_succ, List.getD_cons_zero, List.cons_append]
  omega

lemma wav_payload (pcm : List Nat) :
    (wavFromPCMBytes pcm 16000).drop 44 = pcm := by
  rw [wavFromPCMBytes, wavHeader_cons]
  simp [List.drop_succ_cons, List.cons_append]

/-- C4: for every PCM byte input (the empty one included) the encoder of
src/unnamed/part_003 totally and deterministically produces the 44-byte
header followed by the input bytes, with RIFF ChunkSize `36 + len`,
SampleRate 16000, ByteRate 32000, BlockAlign 2, BitsPerSample 16 and
data-chunk length `len` (the size bound holds for every input the server
can receive: a V8 string, hence its decoded byte length, is far below
2^32). -/
theorem c4_wav_container (pcm : List Nat) (h : pcm.length + 36 < 4294967296) :
    (wavHeader pcm.length 16000).length = 44 ∧
    wavFromPCMBytes pcm 16000 = wavHeader pcm.length 16000 ++ pcm ∧
    (wavFromPCMBytes pcm 16000).take 4 = asciiBytes "RIFF" ∧
    readU32LE (wavFromPCMBytes pcm 16000) 4 = 36 + pcm.length ∧
    readU32LE (wavFromPCMBytes pcm 16000) 24 = 16000 ∧
    readU32LE (wavFromPCMBytes pcm 16000) 28 = 32000 ∧
    readU16LE (wavFromPCMBytes pcm 16000) 32 = 2 ∧
    readU16LE (wavFromPCMBytes pcm 16000) 34 = 16 ∧
    readU32LE (wavFromPCMBytes pcm 16000) 40 = pcm.length ∧
    (wavFromPCMBytes pcm 16000).drop 44 = pcm :=
  ⟨wav_len pcm, wav_split pcm, wav_magic pcm, wav_chunkSize pcm h,
   wav_sampleRate pcm, wav_byteRate pcm, wav_blockAlign pcm,
   wav_bitsPerSample pcm, wav_dataLen pcm (by omega), wav_payload pcm⟩

/-- Witness for C4 at a 4-sample (8-byte) input and at the empty input. -/
theorem c4_witness :
    readU32LE (wavFromPCMBytes [1, 2, 3, 4, 5, 6, 7, 8] 16000) 4 = 44 ∧
    readU32LE (wavFromPCMBytes [1, 2, 3, 4, 5, 6, 7, 8] 16000) 40 = 8 ∧
    readU32LE (wavFromPCMBytes [] 16000) 40 = 0 ∧
    (wavHeader ([] : List Nat).length 16000).length = 44 := by
  obtain ⟨-, -, -, h4, -, -, -, -, h40, -⟩ :=
    c4_wav_container [1, 2, 3, 4, 5, 6, 7, 8] (by norm_num)
  obtain ⟨h0len, -, -, -, -, -, -, -, h040, -⟩ :=
    c4_wav_container [] (by norm_num)
  exact ⟨h4, h40, h040, h0len⟩

/-- C5 (amended): in src/unnamed/part_003 (lines 156–177) the claim
holds: a response text whose lowercase form contains the sentinel yields
no corrected_transcription, a text empty after trimming yields none, and
any other text yields exactly one message carrying the trimmed text with
the drain-time chunkId; the last conjunct ties this to the handler turn
that receives the response. -/
theorem c5_part003_sentinel_filtering (text : String) (cid ts : Nat) :
    (chContains sentinel.data (jsToLower text) = true →
      batchResponseMsgs text cid ts = []) ∧
    (jsTrimChars text.data = [] → batchResponseMsgs text cid ts = []) ∧
    (chContains sentinel.data (jsToLower text) = false →
      jsTrimChars text.data ≠ [] →
      batchResponseMsgs text cid ts = [WsOut.corrected (jsTrim text) cid ts]) ∧
    (∀ s : ConnState, ∀ fr rest, s.inflight = (fr, cid) :: rest →
      (step (Ev.batchDone (some text) ts) s).2 =
        (batchResponseMsgs text cid ts).map Eff.send) := by
  refine ⟨?_, ?_, ?_, ?_⟩
  · intro hc
    unfold batchResponseMsgs
    split
    · simp [hc]
    · rfl
  · intro ht
    unfold batchResponseMsgs
    simp [ht]
  · intro hc ht
    unfold batchResponseMsgs
    rw [if_pos (by exact List.length_pos.mpr ht), if_neg (by simp [hc])]
  · intro s fr rest hi
    simp [step, hi]

/-- Witness for C5: a sentinel-bearing text, a whitespace-only text, and
an ordinary text, each at chunkId 3. -/
theorem c5_witness :
    batchResponseMsgs "Well... UNCLEAR Audio, sorry" 3 7 = [] ∧
    batchResponseMsgs "   " 3 7 = [] ∧
    batchResponseMsgs " hi there " 3 7 = [WsOut.corrected "hi there" 3 7] := by
  obtain ⟨h1, -, -, -⟩ :=
    c5_part003_sentinel_filtering "Well... UNCLEAR Audio, sorry" 3 7
  obtain ⟨-, h2, -, -⟩ := c5_part003_sentinel_filtering "   " 3 7
  obtain ⟨-, -, h3, -⟩ := c5_part003_sentinel_filtering " hi there " 3 7
  refine ⟨h1 (by decide), h2 (by decide), ?_⟩
  rw [h3 (by decide) (by decide)]
  decide

/-- C5 counterexample: src/backend/server.js (lines 136–148) sends the
message even when the response text is exactly the sentinel, so the claim
fails on that handler. -/
theorem c5_serverjs_sends_sentinel :
    serverJsBatchMsgs "unclear audio" 0 0 =
      [WsOut.corrected "unclear audio" 0 0] := by
  decide

/-- The in-flight flag tracks exactly the outstanding submissions, and
there is never more than one. -/
def ConnInv (s : ConnState) : Prop :=
  (s.isProcessingBatch = true ↔ s.inflight.length = 1) ∧ s.inflight.length ≤ 1

lemma connInv_init : ConnInv connInit := by
  constructor <;> simp [connInit]

lemma connInv_step (e : Ev) (s : ConnState) (h : ConnInv s) :
    ConnInv (step e s).1 := by
  obtain ⟨h1, h2⟩ := h
  cases e with
  | sessionOpenOk => exact ⟨h1, h2⟩
  | sessionOpenFail emsg => exact ⟨h1, h2⟩
  | tick =>
      by_cases hb : s.batchInterval
      · simp only [step, hb, if_true]
        by_cases hp : (s.isProcessingBatch || s.audioBuffer.isEmpty)
        · simp only [processBatchStart, hp, if_true]
          exact ⟨h1, h2⟩
        · have hflag : s.isProcessingBatch = false := by
            cases hf : s.isProcessingBatch
            · rfl
            · simp [hf] at hp
          have hlen : s.inflight.length = 0 := by
            rw [hflag] at h1
            simp only [Bool.false_eq_true, false_iff] at h1
            omega
          simp only [processBatchStart, hp, if_false]
          refine ⟨?_, ?_⟩ <;> simp [List.length_append, hlen]
      · simp only [step, hb]
        exact ⟨h1, h2⟩
  | batchDone outcome ts =>
      cases hi : s.inflight with
      | nil =>
          simp only [step, hi]
          exact ⟨h1, h2⟩
      | cons p rest =>
          rw [hi] at h2
          simp only [List.length_cons] at h2
          simp [ConnInv, step, hi]
          omega
  | clientAudio b64 =>
      by_cases hr : s.realtimeSession <;> simp [step, hr] <;> exact ⟨h1, h2⟩
  | clientText t =>
      by_cases hr : s.realtimeSession <;> simp [step, hr] <;> exact ⟨h1, h2⟩
  | clientBadJson emsg => exact ⟨h1, h2⟩
  | clientUnknown ty => exact ⟨h1, h2⟩
  | wsClose => exact ⟨h1, h2⟩

lemma connInv_run (evs : List Ev) (s : ConnState) (h : ConnInv s) :
    ConnInv (run s evs).1 := by
  induction evs generalizing s with
  | nil => exact h
  | cons e rest ih =>
      have := ih (step e s).1 (connInv_step e s h)
      simpa [run] using this

/-- C1: in every state reachable from the initial connection state, at
most one batch submission is outstanding; a timer tick while the
in-flight flag is set changes nothing and issues no request (the
accumulated fragments stay in the buffer and are carried into the next
drain); and the completion turn of a submission clears the flag whether
the request resolved (`some text`) or rejected (`none`). -/
theorem c1_at_most_one_inflight (evs : List Ev) :
    ((run connInit evs).1.inflight.length ≤ 1) ∧
    ((run connInit evs).1.isProcessingBatch = true →
      step Ev.tick (run connInit evs).1 = ((run connInit evs).1, [])) ∧
    (∀ outcome ts,
      ((step (Ev.batchDone outcome ts) (run connInit evs).1).1).isProcessingBatch
        = false) := by
  have hinv : ConnInv (run connInit evs).1 := connInv_run evs connInit connInv_init
  refine ⟨hinv.2, ?_, ?_⟩
  · intro hp
    simp only [step]
    split
    · simp [processBatchStart, hp]
    · rfl
  · intro outcome ts
    cases hi : (run connInit evs).1.inflight with
    | nil =>
        simp only [step, hi]
        have h1 := hinv.1
        rw [hi] at h1
        cases hf : (run connInit evs).1.isProcessingBatch
        · rfl
        · rw [hf] at h1
          simp at h1
    | cons p rest => simp [step, hi]

/-- Witness for C1: a concrete trace that opens the session, buffers a
fragment and drains it, reaching a state with the flag set. -/
theorem c1_witness :
    ((run connInit [Ev.sessionOpenOk, Ev.clientAudio "QQ==", Ev.tick]).1.inflight.length
        ≤ 1) ∧
    step Ev.tick (run connInit [Ev.sessionOpenOk, Ev.clientAudio "QQ==", Ev.tick]).1 =
      ((run connInit [Ev.sessionOpenOk, Ev.clientAudio "QQ==", Ev.tick]).1, []) ∧
    ((step (Ev.batchDone none 0)
        (run connInit [Ev.sessionOpenOk, Ev.clientAudio "QQ==", Ev.tick]).1).1).isProcessingBatch
      = false := by
  obtain ⟨ha, hb, hc⟩ :=
    c1_at_most_one_inflight [Ev.sessionOpenOk, Ev.clientAudio "QQ==", Ev.tick]
  exact ⟨ha, hb (by decide), hc none 0⟩

lemma run_append (l1 l2 : List Ev) (s : ConnState) :
    run s (l1 ++ l2) =
      ((run (run s l1).1 l2).1, (run s l1).2 ++ (run (run s l1).1 l2).2) := by
  induction l1 generalizing s with
  | nil => simp [run]
  | cons e rest ih => simp [run, ih (step e s).1]

/-- Effect of a block of audio messages while the session is open: the
fragments land at the end of the buffer in arrival order, every other
relevant field is untouched, and no submission is issued. -/
lemma run_audioEvs (xs : List String) (s : ConnState)
    (h : s.realtimeSession = true) :
    ((run s (audioEvs xs)).1.audioBuffer = s.audioBuffer ++ xs) ∧
    ((run s (audioEvs xs)).1.realtimeSession = true) ∧
    ((run s (audioEvs xs)).1.isProcessingBatch = s.isProcessingBatch) ∧
    ((run s (audioEvs xs)).1.batchInterval = s.batchInterval) ∧
    ((run s (audioEvs xs)).1.transcriptionCounter = s.transcriptionCounter) ∧
    (submitsOf (run s (audioEvs xs)).2 = []) := by
  induction xs generalizing s with
  | nil => simp [run, audioEvs, submitsOf, h]
  | cons x rest ih =>
      have hstep : step (Ev.clientAudio x) s =
          ({ s with
              audioChunkCount := s.audioChunkCount + 1
              audioBuffer := s.audioBuffer ++ [x] },
           [Eff.relayAudio x]) := by
        simp [step, h]
      obtain ⟨i1, i2, i3, i4, i5, i6⟩ :=
        ih { s with
              audioChunkCount := s.audioChunkCount + 1
              audioBuffer := s.audioBuffer ++ [x] } h
      have hrun1 : (run s (audioEvs (x :: rest))).1 =
          (run { s with
                  audioChunkCount := s.audioChunkCount + 1
                  audioBuffer := s.audioBuffer ++ [x] } (audioEvs rest)).1 := by
        simp only [audioEvs, List.map_cons, run, hstep]
      have hrun2 : (run s (audioEvs (x :: rest))).2 =
          Eff.relayAudio x ::
            (run { s with
                    audioChunkCount := s.audioChunkCount + 1
                    audioBuffer := s.audioBuffer ++ [x] } (audioEvs rest)).2 := by
        simp only [audioEvs, List.map_cons, run, hstep]
        rfl
      refine ⟨?_, ?_, ?_, ?_, ?_, ?_⟩
      · rw [hrun1, i1]; simp
      · rw [hrun1]; exact i2
      · rw [hrun1]; exact i3
      · rw [hrun1]; exact i4
      · rw [hrun1]; exact i5
      · rw [hrun2]
        simp only [submitsOf, List.filterMap_cons] at i6 ⊢
        exact i6

/-- C2: interleaving N appends with one drain (the copy-and-reset prefix
of processBatchAudio) loses and duplicates nothing: with the session open,
the timer armed and no batch in flight, running the appends `xs`, then a
tick, then the appends `ys` from a state whose window holds `b0` makes the
drained (submitted) fragments plus the post-drain window exactly
`b0 ++ xs ++ ys`, in order; the count form makes "each fragment in exactly
one of the two" explicit. -/
theorem c2_no_loss (b0 xs ys : List String) (s0 : ConnState)
    (hbuf : s0.audioBuffer = b0) (hflag : s0.isProcessingBatch = false)
    (hsess : s0.realtimeSession = true) (htimer : s0.batchInterval = true) :
    (((submitsOf (run s0 (audioEvs xs ++ Ev.tick :: audioEvs ys)).2).map
          Prod.fst).flatten ++
        (run s0 (audioEvs xs ++ Ev.tick :: audioEvs ys)).1.audioBuffer
      = b0 ++ xs ++ ys) ∧
    (∀ f : String,
      (((submitsOf (run s0 (audioEvs xs ++ Ev.tick :: audioEvs ys)).2).map
            Prod.fst).flatten).count f +
          ((run s0 (audioEvs xs ++ Ev.tick :: audioEvs ys)).1.audioBuffer).count f
        = (b0 ++ xs ++ ys).count f) := by
  obtain ⟨a1, a2, a3, a4, a5, a6⟩ := run_audioEvs xs s0 hsess
  have hflag1 : (run s0 (audioEvs xs)).1.isProcessingBatch = false := by
    rw [a3, hflag]
  have htimer1 : (run s0 (audioEvs xs)).1.batchInterval = true := by
    rw [a4, htimer]
  have hbuf1 : (run s0 (audioEvs xs)).1.audioBuffer = b0 ++ xs := by
    rw [a1, hbuf]
  have key :
      ((submitsOf (run s0 (audioEvs xs ++ Ev.tick :: audioEvs ys)).2).map
          Prod.fst).flatten ++
        (run s0 (audioEvs xs ++ Ev.tick :: audioEvs ys)).1.audioBuffer
      = b0 ++ xs ++ ys := by
    rw [run_append]
    by_cases he : (run s0 (audioEvs xs)).1.audioBuffer = []
    · have htick : step Ev.tick (run s0 (audioEvs xs)).1 =
          ((run s0 (audioEvs xs)).1, []) := by
        simp [step, htimer1, processBatchStart, hflag1, he]
      obtain ⟨b1, b2, b3, b4, b5, b6⟩ :=
        run_audioEvs ys (run s0 (audioEvs xs)).1 a2
      have hrc : run (run s0 (audioEvs xs)).1 (Ev.tick :: audioEvs ys) =
          ((run (run s0 (audioEvs xs)).1 (audioEvs ys)).1,
           (run (run s0 (audioEvs xs)).1 (audioEvs ys)).2) := by
        simp [run, htick]
      rw [hrc]
      simp only [submitsOf, List.filterMap_append] at a6 b6 ⊢
      rw [a6, b6, b1, hbuf1]
      simp
    · have he' : ((run s0 (audioEvs xs)).1.audioBuffer).isEmpty = false := by
        cases hb : (run s0 (audioEvs xs)).1.audioBuffer
        · exact absurd hb he
        · rfl
      have htick : step Ev.tick (run s0 (audioEvs xs)).1 =
          ({ (run s0 (audioEvs xs)).1 with
              isProcessingBatch := true
              audioBuffer := []
              transcriptionCounter :=
                (run s0 (audioEvs xs)).1.transcriptionCounter + 1
              inflight := (run s0 (audioEvs xs)).1.inflight ++
                [((run s0 (audioEvs xs)).1.audioBuffer,
                  (run s0 (audioEvs xs)).1.transcriptionCounter)] },
           [Eff.submit (run s0 (audioEvs xs)).1.audioBuffer
              (run s0 (audioEvs xs)).1.transcriptionCounter]) := by
        simp [step, htimer1, processBatchStart, hflag1, he']
      obtain ⟨b1, b2, b3, b4, b5, b6⟩ :=
        run_audioEvs ys
          { (run s0 (audioEvs xs)).1 with
              isProcessingBatch := true
              audioBuffer := []
              transcriptionCounter :=
                (run s0 (audioEvs xs)).1.transcriptionCounter + 1
              inflight := (run s0 (audioEvs xs)).1.inflight ++
                [((run s0 (audioEvs xs)).1.audioBuffer,
                  (run s0 (audioEvs xs)).1.transcriptionCounter)] } a2
      have hrc : run (run s0 (audioEvs xs)).1 (Ev.tick :: audioEvs ys) =
          ((run
              { (run s0 (audioEvs xs)).1 with
                  isProcessingBatch := true
                  audioBuffer := []
                  transcriptionCounter :=
                    (run s0 (audioEvs xs)).1.transcriptionCounter + 1
                  inflight := (run s0 (audioEvs xs)).1.inflight ++
                    [((run s0 (audioEvs xs)).1.audioBuffer,
                      (run s0 (audioEvs xs)).1.transcriptionCounter)] }
              (audioEvs ys)).1,
           Eff.submit (run s0 (audioEvs xs)).1.audioBuffer
              (run s0 (audioEvs xs)).1.transcriptionCounter ::
             (run
              { (run s0 (audioEvs xs)).1 with
                  isProcessingBatch := true
                  audioBuffer := []
                  transcriptionCounter :=
                    (run s0 (audioEvs xs)).1.transcriptionCounter + 1
                  inflight := (run s0 (audioEvs xs)).1.inflight ++
                    [((run s0 (audioEvs xs)).1.audioBuffer,
                      (run s0 (audioEvs xs)).1.transcriptionCounter)] }
              (audioEvs ys)).2) := by
        simp [run, htick]
      rw [hrc]
      simp only [submitsOf, List.filterMap_append, List.filterMap_cons] at a6 b6 ⊢
      rw [a6, b6, b1, hbuf1]
      simp
  refine ⟨key, fun f => ?_⟩
  have := congrArg (List.count f) key
  simpa [List.count_append] using this

/-- Witness for C2: one pre-drain fragment, a drain, one post-drain
fragment, from the state right after the session opened. -/
theorem c2_witness :
    ((submitsOf (run (run connInit [Ev.sessionOpenOk]).1
          (audioEvs ["QQ=="] ++ Ev.tick :: audioEvs ["ZZZZ"])).2).map
        Prod.fst).flatten ++
      (run (run connInit [Ev.sessionOpenOk]).1
          (audioEvs ["QQ=="] ++ Ev.tick :: audioEvs ["ZZZZ"])).1.audioBuffer
    = [] ++ ["QQ=="] ++ ["ZZZZ"] :=
  (c2_no_loss [] ["QQ=="] ["ZZZZ"] (run connInit [Ev.sessionOpenOk]).1
    rfl rfl rfl rfl).1

lemma unb64_b64Char : ∀ v : Nat, v < 64 → unbase64 (b64Char v) = some v := by decide

lemma b64Char_ne_pad : ∀ v : Nat, v < 64 → ¬ (b64Char v = '=') := by decide

lemma b64Sextets_cons (v : Nat) (h : v < 64) (rest : List Char) :
    b64Sextets (b64Char v :: rest) = v :: b64Sextets rest := by
  simp [b64Sextets, unb64_b64Char v h, b64Char_ne_pad v h]

lemma b64_roundtrip (b : List Nat) (hb : ∀ x ∈ b, x < 256) :
    nodeB64Decode (b64encode b) = b := by
  induction b using b64encode.induct with
  | case4 => rfl
  | case1 b0 b1 b2 rest ih =>
      have h0 : b0 < 256 := hb b0 (by simp)
      have h1 : b1 < 256 := hb b1 (by simp)
      have h2 : b2 < 256 := hb b2 (by simp)
      have ih' := ih (fun x hx => hb x (by simp [hx]))
      simp only [b64encode, nodeB64Decode]
      rw [b64Sextets_cons _ (by omega), b64Sextets_cons _ (by omega),
        b64Sextets_cons _ (by omega), b64Sextets_cons _ (by omega)]
      simp only [sextetsToBytes]
      rw [show b0 / 4 * 4 + (b0 % 4 * 16 + b1 / 16) / 16 = b0 by omega,
        show (b0 % 4 * 16 + b1 / 16) % 16 * 16 + (b1 % 16 * 4 + b2 / 64) / 4 = b1 by omega,
        show (b1 % 16 * 4 + b2 / 64) % 4 * 64 + b2 % 64 = b2 by omega]
      simp only [nodeB64Decode] at ih'
      rw [ih']
  | case2 b0 b1 =>
      have h0 : b0 < 256 := hb b0 (by simp)
      have h1 : b1 < 256 := hb b1 (by simp)
      simp only [b64encode, nodeB64Decode]
      rw [b64Sextets_cons _ (by omega), b64Sextets_cons _ (by omega),
        b64Sextets_cons _ (by omega)]
      have hpad : b64Sextets ['='] = [] := rfl
      rw [hpad]
      simp only [sextetsToBytes]
      rw [show b0 / 4 * 4 + (b0 % 4 * 16 + b1 / 16) / 16 = b0 by omega,
        show (b0 % 4 * 16 + b1 / 16) % 16 * 16 + b1 % 16 * 4 / 4 = b1 by omega]
  | case3 b0 =>
      have h0 : b0 < 256 := hb b0 (by simp)
      simp only [b64encode, nodeB64Decode]
      rw [b64Sextets_cons _ (by omega), b64Sextets_cons _ (by omega)]
      have hpad : b64Sextets ['=', '='] = [] := rfl
      rw [hpad]
      simp only [sextetsToBytes]
      rw [show b0 / 4 * 4 + b0 % 4 * 16 / 16 = b0 by omega]

lemma b64_dec_append (b : List Nat) (t : List Char) (hb : ∀ x ∈ b, x < 256)
    (h3 : b.length % 3 = 0) :
    nodeB64Decode (b64encode b ++ t) = b ++ nodeB64Decode t := by
  induction b using b64encode.induct with
  | case4 => rfl
  | case1 b0 b1 b2 rest ih =>
      have h0 : b0 < 256 := hb b0 (by simp)
      have h1 : b1 < 256 := hb b1 (by simp)
      have h2 : b2 < 256 := hb b2 (by simp)
      have h3' : rest.length % 3 = 0 := by
        simp only [List.length_cons] at h3
        omega
      have ih' := ih (fun x hx => hb x (by simp [hx])) h3'
      simp only [b64encode, nodeB64Decode, List.cons_append]
      rw [b64Sextets_cons _ (by omega), b64Sextets_cons _ (by omega),
        b64Sextets_cons _ (by omega), b64Sextets_cons _ (by omega)]
      simp only [sextetsToBytes]
      rw [show b0 / 4 * 4 + (b0 % 4 * 16 + b1 / 16) / 16 = b0 by omega,
        show (b0 % 4 * 16 + b1 / 16) % 16 * 16 + (b1 % 16 * 4 + b2 / 64) / 4 = b1 by omega,
        show (b1 % 16 * 4 + b2 / 64) % 4 * 64 + b2 % 64 = b2 by omega]
      simp only [nodeB64Decode] at ih'
      rw [ih']
  | case2 b0 b1 => simp at h3
  | case3 b0 => simp at h3

lemma combine_flatten (frags : List (List Nat))
    (hb : ∀ b ∈ frags, ∀ x ∈ b, x < 256)
    (h3 : ∀ b ∈ frags.dropLast, b.length % 3 = 0) :
    nodeB64Decode ((frags.map b64encode).flatten) = frags.flatten := by
  induction frags with
  | nil => rfl
  | cons b rest ih =>
      cases rest with
      | nil =>
          simp only [List.map_cons, List.map_nil, List.flatten_cons,
            List.flatten_nil, List.append_nil]
          exact b64_roundtrip b (hb b (by simp))
      | cons r rs =>
          have hh : b.length % 3 = 0 := h3 b (by
            have : (b :: r :: rs).dropLast = b :: (r :: rs).dropLast := rfl
            rw [this]
            simp)
          have ih' := ih
            (fun c hc => hb c (by simp [hc]))
            (fun c hc => h3 c (by
              have : (b :: r :: rs).dropLast = b :: (r :: rs).dropLast := rfl
              rw [this]
              simp [hc]))
          simp only [List.map_cons, List.flatten_cons] at ih' ⊢
          rw [b64_dec_append b _ (hb b (by simp)) hh, ih']

lemma part003_combine_flatten (frags : List (List Nat))
    (hb : ∀ b ∈ frags, ∀ x ∈ b, x < 256) :
    part003CombinePCM (frags.map fun b => String.mk (b64encode b)) =
      frags.flatten := by
  induction frags with
  | nil => rfl
  | cons b rest ih =>
      have ih' := ih (fun c hc => hb c (by simp [hc]))
      simp only [part003CombinePCM, List.map_cons, List.flatten_cons] at ih' ⊢
      rw [ih']
      have : nodeB64Decode (String.mk (b64encode b)).data = b :=
        b64_roundtrip b (hb b (by simp))
      rw [this]

/-- C6 counterexample: for two one-byte fragments (each encoding to
`"AA=="`), server.js's join-then-decode yields a single byte — node's
decoder stops at the first embedded padding character — while part_003's
decode-each-then-concatenate yields both bytes. -/
theorem c6_cex_join_vs_concat :
    serverJsCombinePCM ["AA==", "AA=="] = [0] ∧
    part003CombinePCM ["AA==", "AA=="] = [0, 0] ∧
    serverJsCombinePCM ["AA==", "AA=="] ≠ part003CombinePCM ["AA==", "AA=="] := by
  refine ⟨by decide, by decide, by decide⟩

/-- C6 (amended): the two batch-concatenation implementations agree — and
both equal the byte-exact in-order concatenation — exactly on fragment
lists in which every fragment except possibly the last has byte length a
multiple of 3, so that no non-final encoding carries `'='` padding; with
an embedded padding character server.js's joined decode truncates (see
the counterexample). -/
theorem c6_amended_equivalence (frags : List (List Nat))
    (hb : ∀ b ∈ frags, ∀ x ∈ b, x < 256)
    (h3 : ∀ b ∈ frags.dropLast, b.length % 3 = 0) :
    serverJsCombinePCM (frags.map fun b => String.mk (b64encode b)) =
      part003CombinePCM (frags.map fun b => String.mk (b64encode b)) ∧
    part003CombinePCM (frags.map fun b => String.mk (b64encode b)) =
      frags.flatten := by
  have hpart := part003_combine_flatten frags hb
  have hserver :
      serverJsCombinePCM (frags.map fun b => String.mk (b64encode b)) =
        frags.flatten := by
    have hmaps :
        ((frags.map fun b => String.mk (b64encode b)).map String.data) =
          frags.map b64encode := by
      simp [List.map_map]
    simp only [serverJsCombinePCM, hmaps]
    exact combine_flatten frags hb h3
  exact ⟨hserver.trans hpart.symm, hpart⟩

/-- Witness for C6 (amended): a 3-byte fragment followed by a 2-byte one. -/
theorem c6_witness :
    serverJsCombinePCM ([[1, 2, 3], [4, 5]].map fun b => String.mk (b64encode b)) =
      part003CombinePCM ([[1, 2, 3], [4, 5]].map fun b => String.mk (b64encode b)) ∧
    part003CombinePCM ([[1, 2, 3], [4, 5]].map fun b => String.mk (b64encode b)) =
      [1, 2, 3, 4, 5] := by
  have h := c6_amended_equivalence [[1, 2, 3], [4, 5]] (by decide) (by decide)
  exact ⟨h.1, h.2⟩

lemma pairwise_lt_of_le_ne (l : List (Nat × String))
    (hle : l.Pairwise byKeyLE) (hne : l.Pairwise fun a b => a.1 ≠ b.1) :
    l.Pairwise byKeyLT := by
  induction l with
  | nil => exact List.Pairwise.nil
  | cons a t ih =>
      rw [List.pairwise_cons] at hle hne ⊢
      exact ⟨fun b hb => Nat.lt_of_le_of_ne (hle.1 b hb) (hne.1 b hb),
        ih hle.2 hne.2⟩

lemma any_key_eq_false (m : List (Nat × String)) (k : Nat)
    (h : k ∉ m.map Prod.fst) : m.any (fun p => p.1 = k) = false := by
  rw [List.any_eq_false]
  intro p hp
  simp only [decide_eq_true_eq]
  intro he
  exact h (by exact List.mem_map.mpr ⟨p, hp, he⟩)

lemma buildChunks_eq_filter (msgs : List (Nat × String))
    (m : List (Nat × String))
    (hd : (msgs.map Prod.fst).Nodup)
    (hdisj : ∀ k ∈ m.map Prod.fst, k ∉ msgs.map Prod.fst) :
    msgs.foldl receiverInsert m = m ++ msgs.filter (fun p => p.2 ≠ "") := by
  induction msgs generalizing m with
  | nil => simp
  | cons p rest ih =>
      simp only [List.map_cons, List.nodup_cons] at hd
      simp only [List.foldl_cons]
      by_cases hv : p.2 = ""
      · have hri : receiverInsert m p = m := by simp [receiverInsert, hv]
        rw [hri]
        have ih' := ih m hd.2 (fun k hk => by
          have := hdisj k hk
          simp only [List.map_cons, List.mem_cons, not_or] at this
          exact this.2)
        rw [ih']
        simp [List.filter_cons, hv]
      · have hnotin : p.1 ∉ m.map Prod.fst := by
          intro hmem
          exact hdisj p.1 hmem (by simp)
        have hri : receiverInsert m p = m ++ [p] := by
          simp only [receiverInsert, hv, if_false, jsMapSet,
            any_key_eq_false m p.1 hnotin]
          simp
        rw [hri]
        have ih' := ih (m ++ [p]) hd.2 (fun k hk => by
          simp only [List.map_append, List.mem_append, List.map_cons,
            List.map_nil, List.mem_singleton] at hk
          rcases hk with hk | hk
          · have := hdisj k hk
            simp only [List.map_cons, List.mem_cons, not_or] at this
            exact this.2
          · rw [hk]
            exact hd.1)
        rw [ih']
        simp [List.filter_cons, hv]

lemma sortChunks_sorted_strict (u : List (Nat × String))
    (hd : (u.map Prod.fst).Nodup) :
    (sortChunks u).Pairwise byKeyLT := by
  have hsorted : (sortChunks u).Pairwise byKeyLE :=
    List.sorted_insertionSort byKeyLE u
  have hperm : List.Perm ((sortChunks u).map Prod.fst) (u.map Prod.fst) :=
    (List.perm_insertionSort byKeyLE u).map Prod.fst
  have hnd : ((sortChunks u).map Prod.fst).Nodup := hperm.nodup_iff.mpr hd
  have hne : (sortChunks u).Pairwise fun a b => a.1 ≠ b.1 :=
    List.pairwise_map.mp hnd
  exact pairwise_lt_of_le_ne _ hsorted hne

lemma sortChunks_perm_eq (u v : List (Nat × String)) (hperm : List.Perm u v)
    (hdu : (u.map Prod.fst).Nodup) : sortChunks u = sortChunks v := by
  have hdv : (v.map Prod.fst).Nodup := (hperm.map Prod.fst).nodup_iff.mp hdu
  refine List.eq_of_perm_of_sorted (r := byKeyLT) ?_ ?_ ?_
  · exact (List.perm_insertionSort byKeyLE u).trans
      (hperm.trans (List.perm_insertionSort byKeyLE v).symm)
  · exact sortChunks_sorted_strict u hdu
  · exact sortChunks_sorted_strict v hdv

/-- C7: sequence numbers come from the per-connection counter at drain
time — an actual drain stamps the submission with the current counter
value and increments the counter by exactly one — and the receiver's
reassembly (insert into a map keyed by chunkId, then join the entries
sorted by that key) produces the same final text for every permutation
of the arrival order of the corrected-transcription messages, provided
their chunkIds are distinct (which consecutive counter values are). -/
theorem c7_drain_ids_and_reassembly :
    (∀ s : ConnState, s.batchInterval = true → s.isProcessingBatch = false →
      s.audioBuffer ≠ [] →
      (step Ev.tick s).1.transcriptionCounter = s.transcriptionCounter + 1 ∧
      (step Ev.tick s).2 = [Eff.submit s.audioBuffer s.transcriptionCounter]) ∧
    (∀ msgs msgs' : List (Nat × String),
      (msgs.map Prod.fst).Nodup → List.Perm msgs' msgs →
      receiverFinal msgs' = receiverFinal msgs) := by
  constructor
  · intro s hb hp he
    have he' : (s.audioBuffer).isEmpty = false := by
      cases hbuf : s.audioBuffer
      · exact absurd hbuf he
      · rfl
    constructor <;> simp [step, hb, processBatchStart, hp, he']
  · intro msgs msgs' hd hperm
    have hd' : (msgs'.map Prod.fst).Nodup := (hperm.map Prod.fst).nodup_iff.mpr hd
    unfold receiverFinal buildChunks
    rw [buildChunks_eq_filter msgs' [] hd' (by simp),
      buildChunks_eq_filter msgs [] hd (by simp)]
    simp only [List.nil_append]
    have hsort : sortChunks (msgs'.filter fun p => p.2 ≠ "") =
        sortChunks (msgs.filter fun p => p.2 ≠ "") := by
      refine sortChunks_perm_eq _ _ (hperm.filter _) ?_
      have hsub : List.Sublist ((msgs'.filter fun p => p.2 ≠ "").map Prod.fst)
          (msgs'.map Prod.fst) :=
        (List.filter_sublist msgs').map Prod.fst
      exact hd'.sublist hsub
    rw [hsort]

/-- Witness for C7: two corrected transcriptions arriving out of order
give the same final text as in-order arrival; and a concrete drain turn
increments the counter. -/
theorem c7_witness :
    receiverFinal [(1, "b"), (0, "a")] = receiverFinal [(0, "a"), (1, "b")] ∧
    (step Ev.tick
        { connInit with
            realtimeSession := true, batchInterval := true,
            audioBuffer := ["QQ=="] }).1.transcriptionCounter = 1 := by
  obtain ⟨hdrain, hre⟩ := c7_drain_ids_and_reassembly
  constructor
  · exact hre [(0, "a"), (1, "b")] [(1, "b"), (0, "a")] (by decide) (by decide)
  · exact (hdrain
      { connInit with
          realtimeSession := true, batchInterval := true,
          audioBuffer := ["QQ=="] } rfl rfl (by decide)).1
